import Mathlib

/-!
Shallow embedding of the order-ledger contract (`TransparentOrderProtocol`,
src/unnamed/part_001, lines 1300-1827) and the price-oracle contract
(`PriceProtectionOracle`, src/contracts/PriceProtectionOracle.sol), together
with theorems settling the frozen claims about them.

Modelling conventions, shared by both namespaces below:
* `uint256` values are `Nat`.  Subtractions that can underflow for reachable
  inputs are guarded explicitly and produce the `underflow` error, mirroring
  a Solidity 0.8 checked-arithmetic revert; multiplications are guarded
  against exceeding `2 ^ 256` in the same way (`mulCk`).  Counter increments
  such as `attempts + 1` are left unguarded: overflowing them would need
  `2 ^ 256` prior transactions.
* A revert is an `Except.error`: the caller's state is the unmodified input
  state, which is exactly Solidity's state-rollback semantics, so "fails with
  no state change" is expressed by the call returning `.error _`.
* `keccak256(abi.encode ...)` order identifiers are modelled injectively: the
  `OrderHash` key IS the tuple of the ten defining fields that the contract
  hashes (collision-freeness of the hash is idealised).  Likewise the oracle's
  `keccak256(abi.encodePacked(base, quote))` pair id is the pair `(base, quote)`.
* The ERC20 custody collaborator is the abstract interface of the spec: a
  balance table `asset -> holder -> amount`; `transfer`/`transferFrom` succeed
  iff the payer's balance suffices, and fail as a unit otherwise (allowance
  bookkeeping is abstracted away, as the spec treats custody abstractly).
* OpenZeppelin's `ReentrancyGuard` status flag is the `entered` field of the
  state: a `nonReentrant` entry point reverts when `entered` is already set.
  This matters because `batchExecuteOrders` (nonReentrant) calls
  `this.executeOrder` (also nonReentrant) as an external self-call.
* Events are observability only and are not modelled.
-/

namespace OrderProtocol

/-- Addresses; `0` is `address(0)`. -/
abbrev Addr := Nat

/-- The contract's own address (`address(this)`), arbitrary but fixed. -/
def contractAddr : Addr := 1

def UINT256_LIMIT : Nat := 2 ^ 256

/-- `PRICE_PRECISION = 1e18`. -/
def PRICE_PRECISION : Nat := 10 ^ 18

/-- `GAS_PRIORITY_MULTIPLIER = 100`. -/
def GAS_PRIORITY_MULTIPLIER : Nat := 100

/-- Error taxonomy: one constructor per distinct `require` / revert site
reached by the modelled entry points. -/
inductive LedgerErr where
  | reentrantCall
  | invalidUser
  | invalidAmount
  | invalidTargetPrice
  | orderAlreadyExpired
  | sameAssets
  | wrappedTokenRequired
  | orderAlreadyExists
  | insufficientBalance
  | transferFailed
  | orderNotFound
  | orderExpired
  | orderAlreadyCompleted
  | priceOutOfTolerance
  | notOrderCreator
  | invalidNewAmount
  | canOnlyDecreaseAmount
  | limitTooHigh
  | arrayLengthMismatch
  | tooManyOrders
  | underflow
  | overflow
deriving DecidableEq, Repr

/-- Checked `uint256` multiplication. -/
def mulCk (a b : Nat) : Except LedgerErr Nat :=
  if a * b < UINT256_LIMIT then .ok (a * b) else .error .overflow

/-- Point update of a total map (Solidity mapping write). -/
def updMap {α β : Type} [DecidableEq α] (f : α → β) (k : α) (v : β) : α → β :=
  fun k' => if k' = k then v else f k'

structure PriceProtection where
  enabled : Bool
  tolerance : Nat
  lastPriceCheck : Nat
  lastMarketPrice : Nat
deriving DecidableEq, Repr

structure WrappedToken where
  originalToken : Addr
  wrappedToken : Addr
  unwrapAfter : Bool
  bridgeFee : Nat
deriving DecidableEq, Repr

structure BalanceCheck where
  enabled : Bool
  lastCheck : Nat
  autoAdjust : Bool
  autoCancel : Bool
  minBalance : Nat
deriving DecidableEq, Repr

structure ExecutionInfo where
  attempts : Nat
  lastAttempt : Nat
  failureReason : String
  totalFilled : Nat
  isCompleted : Bool
deriving DecidableEq, Repr

structure PublicOrder where
  user : Addr
  amount : Nat
  targetPrice : Nat
  gasPrice : Nat
  timestamp : Nat
  expiry : Nat
  queuePosition : Nat
  sourceChain : Nat
  targetChain : Nat
  makerAsset : Addr
  takerAsset : Addr
  priceProtection : PriceProtection
  wrappedToken : WrappedToken
  balanceCheck : BalanceCheck
  execution : ExecutionInfo
deriving DecidableEq, Repr

/-- The ten fields fed to `keccak256(abi.encode(...))` in `getOrderHash`;
used directly as the mapping key (injective hash idealisation). -/
structure OrderHash where
  user : Addr
  amount : Nat
  targetPrice : Nat
  gasPrice : Nat
  timestamp : Nat
  expiry : Nat
  sourceChain : Nat
  targetChain : Nat
  makerAsset : Addr
  takerAsset : Addr
deriving DecidableEq, Repr

/-- `getOrderHash` (part_001 line 1674). -/
def getOrderHash (o : PublicOrder) : OrderHash :=
  ⟨o.user, o.amount, o.targetPrice, o.gasPrice, o.timestamp, o.expiry,
   o.sourceChain, o.targetChain, o.makerAsset, o.takerAsset⟩

/-- Contract storage plus environment: `timestamp` is `block.timestamp`,
`balances` the ERC20 custody collaborator, `entered` the ReentrancyGuard
status flag. -/
structure LedgerState where
  orders : OrderHash → PublicOrder
  userOrders : Addr → List OrderHash
  activeOrderHashes : List OrderHash
  totalOrdersCreated : Nat
  totalOrdersFilled : Nat
  globalTolerancePercent : Nat
  balances : Addr → Addr → Nat
  timestamp : Nat
  entered : Bool

/-- `safeTransfer` / `safeTransferFrom` on the abstract custody table:
succeeds iff the payer holds `amt` of `asset`; a self-transfer is a no-op. -/
def tryTransfer (b : Addr → Addr → Nat) (asset src dst : Addr) (amt : Nat) :
    Option (Addr → Addr → Nat) :=
  if amt ≤ b asset src then
    let b1 := fun a h => if a = asset ∧ h = src then b a h - amt else b a h
    some (fun a h => if a = asset ∧ h = dst then b1 a h + amt else b1 a h)
  else none

/-- `_removeFromActiveOrders` (line 1799): swap the first occurrence with the
last element, then pop. -/
def removeFromActiveOrders (l : List OrderHash) (h : OrderHash) : List OrderHash :=
  match l.getLast? with
  | none => l
  | some last => if h ∈ l then (l.set (l.indexOf h) last).dropLast else l

/-- `checkPriceProtection` (lines 1626-1646): per-order tolerance if positive,
otherwise the global one; integer-division bounds around the market price.
`100 - tolerance` underflows (reverts) when the tolerance exceeds 100. -/
def checkPriceProtection (st : LedgerState) (order : PublicOrder)
    (currentMarketPrice : Nat) : Except LedgerErr Bool :=
  let tolerance := if 0 < order.priceProtection.tolerance then
    order.priceProtection.tolerance else st.globalTolerancePercent
  if 100 < tolerance then .error .underflow
  else match mulCk currentMarketPrice (100 - tolerance) with
  | .error e => .error e
  | .ok lo => match mulCk currentMarketPrice (100 + tolerance) with
    | .error e => .error e
    | .ok hi =>
      .ok (decide (lo / 100 ≤ order.targetPrice ∧ order.targetPrice ≤ hi / 100))

/-- `calculateQueuePosition` (lines 1655-1667); `nowTs` is `block.timestamp`. -/
def calculateQueuePosition (nowTs gasPrice timestamp amount : Nat) :
    Except LedgerErr Nat :=
  if nowTs < timestamp then .error .underflow
  else match mulCk gasPrice GAS_PRIORITY_MULTIPLIER with
  | .error e => .error e
  | .ok gasWeight =>
    let amountWeight := amount / 1000
    let timePenalty := (nowTs - timestamp) / 60
    if UINT256_LIMIT ≤ gasWeight + amountWeight then .error .overflow
    else if gasWeight + amountWeight < timePenalty then .error .underflow
    else .ok (gasWeight + amountWeight - timePenalty)

/-- `_cancelOrder` (lines 1766-1780): refund `amount - totalFilled`, mark
completed, record the reason, remove from the active set.  Note the absence
of any `isCompleted` check. -/
def cancelOrderInternal (st : LedgerState) (h : OrderHash) (reason : String) :
    Except LedgerErr LedgerState :=
  let order := st.orders h
  if order.amount < order.execution.totalFilled then .error .underflow
  else match tryTransfer st.balances order.makerAsset contractAddr order.user
      (order.amount - order.execution.totalFilled) with
  | none => .error .transferFailed
  | some b =>
    let newOrder := { order with execution :=
      { order.execution with
        isCompleted := true
        failureReason := reason } }
    .ok { st with
          balances := b
          orders := updMap st.orders h newOrder
          activeOrderHashes := removeFromActiveOrders st.activeOrderHashes h }

/-- `_adjustOrderAmount` (lines 1782-1797). -/
def adjustOrderAmount (st : LedgerState) (h : OrderHash) (newAmount : Nat) :
    Except LedgerErr LedgerState :=
  let order := st.orders h
  if newAmount = 0 then .error .invalidNewAmount
  else if ¬ newAmount < order.amount then .error .canOnlyDecreaseAmount
  else match tryTransfer st.balances order.makerAsset contractAddr order.user
      (order.amount - newAmount) with
  | none => .error .transferFailed
  | some b =>
    .ok { st with
          balances := b
          orders := updMap st.orders h { order with amount := newAmount } }

/-- Tail of `executeOrder` after the balance-check phase (lines 1585-1605):
pull `takerAmount` from the executor to the order's user, pay the escrowed
maker amount to the executor, mark the order filled and completed, remove it
from the active set.  The order is re-read from the state because the
balance-check phase may have adjusted its amount through the storage
reference. -/
def finishExecution (st : LedgerState) (sender : Addr) (h : OrderHash) :
    Except LedgerErr LedgerState :=
  let order := st.orders h
  match mulCk order.amount order.targetPrice with
  | .error e => .error e
  | .ok prod =>
    let takerAmount := prod / PRICE_PRECISION
    match tryTransfer st.balances order.takerAsset sender order.user takerAmount with
    | none => .error .transferFailed
    | some b1 =>
      match tryTransfer b1 order.makerAsset contractAddr sender order.amount with
      | none => .error .transferFailed
      | some b2 =>
        let newOrder := { order with execution :=
          { order.execution with
            totalFilled := order.amount
            isCompleted := true
            attempts := order.execution.attempts + 1
            lastAttempt := st.timestamp } }
        .ok { st with
              balances := b2
              orders := updMap st.orders h newOrder
              totalOrdersFilled := st.totalOrdersFilled + 1
              activeOrderHashes := removeFromActiveOrders st.activeOrderHashes h }

/-- `executeOrder` (lines 1555-1606), with `sender = msg.sender`.  Guard
order: ReentrancyGuard, `orderExists`, expiry, completion, price protection,
balance check (auto-cancel takes precedence over auto-adjust), then the
atomic exchange. -/
def executeOrder (st : LedgerState) (sender : Addr) (h : OrderHash)
    (executionPrice : Nat) : Except LedgerErr LedgerState :=
  if st.entered = true then .error .reentrantCall
  else if (st.orders h).user = 0 then .error .orderNotFound
  else if (st.orders h).expiry ≤ st.timestamp then .error .orderExpired
  else if (st.orders h).execution.isCompleted = true then .error .orderAlreadyCompleted
  else match (if (st.orders h).priceProtection.enabled = true then
      checkPriceProtection st (st.orders h) executionPrice else .ok true) with
  | .error e => .error e
  | .ok false => .error .priceOutOfTolerance
  | .ok true =>
    if (st.orders h).balanceCheck.enabled = true ∧
        st.balances (st.orders h).makerAsset (st.orders h).user < (st.orders h).amount then
      if (st.orders h).balanceCheck.autoCancel = true then
        cancelOrderInternal st h "Insufficient balance - auto cancelled"
      else if (st.orders h).balanceCheck.autoAdjust = true then
        match adjustOrderAmount st h
            (st.balances (st.orders h).makerAsset (st.orders h).user) with
        | .error e => .error e
        | .ok st2 => finishExecution st2 sender h
      else finishExecution st sender h
    else finishExecution st sender h

/-- `cancelOrder` (lines 1612-1618): `orderExists` and `onlyOrderCreator`
modifiers, then `_cancelOrder`. -/
def cancelOrder (st : LedgerState) (sender : Addr) (h : OrderHash) :
    Except LedgerErr LedgerState :=
  if (st.orders h).user = 0 then .error .orderNotFound
  else if (st.orders h).user ≠ sender then .error .notOrderCreator
  else cancelOrderInternal st h "Cancelled by user"

/-- `createOrder` (lines 1500-1548), with `sender = msg.sender`. -/
def createOrder (st : LedgerState) (sender : Addr) (order : PublicOrder) :
    Except LedgerErr (OrderHash × LedgerState) :=
  if st.entered = true then .error .reentrantCall
  else if order.user ≠ sender then .error .invalidUser
  else if order.amount = 0 then .error .invalidAmount
  else if order.targetPrice = 0 then .error .invalidTargetPrice
  else if order.expiry ≤ st.timestamp then .error .orderAlreadyExpired
  else if order.makerAsset = order.takerAsset then .error .sameAssets
  else if order.sourceChain ≠ order.targetChain ∧ order.wrappedToken.wrappedToken = 0 then
    .error .wrappedTokenRequired
  else if (st.orders (getOrderHash order)).user ≠ 0 then .error .orderAlreadyExists
  else if order.balanceCheck.enabled = true ∧
      st.balances order.makerAsset sender < order.amount then .error .insufficientBalance
  else match tryTransfer st.balances order.makerAsset sender contractAddr order.amount with
  | none => .error .transferFailed
  | some b =>
    match calculateQueuePosition st.timestamp order.gasPrice order.timestamp order.amount with
    | .error e => .error e
    | .ok qp =>
      let h := getOrderHash order
      let stored := { order with queuePosition := qp, timestamp := st.timestamp }
      .ok (h, { st with
            balances := b
            orders := updMap st.orders h stored
            userOrders := updMap st.userOrders sender (st.userOrders sender ++ [h])
            activeOrderHashes := st.activeOrderHashes ++ [h]
            totalOrdersCreated := st.totalOrdersCreated + 1 })

/-- One iteration of the insertion sort in `getOrdersByPriority` (lines
1747-1759): the new element shifts left past strictly smaller priorities,
i.e. it is inserted before the first strictly smaller element. -/
def insertDesc (key : OrderHash → Nat) (x : OrderHash) :
    List OrderHash → List OrderHash
  | [] => [x]
  | y :: ys => if key y < key x then x :: y :: ys else y :: insertDesc key x ys

/-- `getOrdersByPriority` (lines 1740-1762): requires `limit` at most the
active count, then insertion-sorts the first `limit` active hashes by
`queuePosition`, highest first. -/
def getOrdersByPriority (st : LedgerState) (limit : Nat) :
    Except LedgerErr (List OrderHash) :=
  if st.activeOrderHashes.length < limit then .error .limitTooHigh
  else .ok ((st.activeOrderHashes.take limit).foldl
    (fun acc x => insertDesc (fun h => (st.orders h).queuePosition) x acc) [])

/-- The per-entry body of `batchExecuteOrders` (lines 1703-1711): try the
external self-call `this.executeOrder` (so `msg.sender` inside is the
contract itself); on any failure the inner call's effects are rolled back
and the catch block bumps the order's attempt counter and failure reason. -/
def batchStep (st : LedgerState) (hp : OrderHash × Nat) : LedgerState :=
  match executeOrder st contractAddr hp.1 hp.2 with
  | .ok st2 => st2
  | .error _ =>
    let o := st.orders hp.1
    let o2 := { o with execution :=
      { o.execution with
        attempts := o.execution.attempts + 1
        failureReason := "Batch execution failed" } }
    { st with orders := updMap st.orders hp.1 o2 }

/-- `batchExecuteOrders` (lines 1696-1712).  The entry point is
`nonReentrant`, so the guard flag is set for the whole loop; each inner
`this.executeOrder` call is itself `nonReentrant` and therefore observes the
set flag. -/
def batchExecuteOrders (st : LedgerState) (hashes : List OrderHash)
    (prices : List Nat) : Except LedgerErr LedgerState :=
  if st.entered = true then .error .reentrantCall
  else if hashes.length ≠ prices.length then .error .arrayLengthMismatch
  else if 10 < hashes.length then .error .tooManyOrders
  else .ok { (hashes.zip prices).foldl batchStep { st with entered := true }
             with entered := false }

/-! Concrete states used by witnesses and counterexamples for the ledger. -/

def zeroExec : ExecutionInfo := ⟨0, 0, "", 0, false⟩

def zeroPP : PriceProtection := ⟨false, 0, 0, 0⟩

def zeroWT : WrappedToken := ⟨0, 0, false, 0⟩

def zeroBC : BalanceCheck := ⟨false, 0, false, false, 0⟩

/-- The all-zero order a Solidity mapping returns for an absent key. -/
def zeroOrder : PublicOrder := ⟨0, 0, 0, 0, 0, 0, 0, 0, 0, 0, 0, zeroPP, zeroWT, zeroBC, zeroExec⟩

/-- Price-protected order selling `1e18` of asset 10 for asset 11 at target
price 90, with a 10 percent tolerance. -/
def oC1 : PublicOrder :=
  { zeroOrder with
    user := 5
    amount := 10 ^ 18
    targetPrice := 90
    expiry := 2000
    makerAsset := 10
    takerAsset := 11
    priceProtection := ⟨true, 10, 0, 0⟩ }

def hC1 : OrderHash := getOrderHash oC1

/-- Ledger holding `oC1` in escrow; executor 2 holds enough of the taker
asset. -/
def stC1 : LedgerState :=
  { orders := updMap (fun _ => zeroOrder) hC1 oC1
    userOrders := fun _ => []
    activeOrderHashes := [hC1]
    totalOrdersCreated := 1
    totalOrdersFilled := 0
    globalTolerancePercent := 10
    balances := fun a h => if a = 10 ∧ h = contractAddr then 10 ^ 18
      else if a = 11 ∧ h = 2 then 90 else 0
    timestamp := 1000
    entered := false }

/-- Plain order (no protection, no balance check) used for the cancellation
claims: amount 100, escrowed twice over by the contract's pooled balance. -/
def oC2 : PublicOrder :=
  { zeroOrder with
    user := 5
    amount := 100
    targetPrice := 7
    expiry := 2000
    makerAsset := 10
    takerAsset := 11 }

def hC2 : OrderHash := getOrderHash oC2

def stC2 : LedgerState :=
  { orders := updMap (fun _ => zeroOrder) hC2 oC2
    userOrders := fun _ => []
    activeOrderHashes := [hC2]
    totalOrdersCreated := 1
    totalOrdersFilled := 0
    globalTolerancePercent := 10
    balances := fun a h => if a = 10 ∧ h = contractAddr then 200 else 0
    timestamp := 1000
    entered := false }

/-- Perfectly executable order for the batch claim: no price protection, no
balance check, funded executor. -/
def oC3 : PublicOrder :=
  { zeroOrder with
    user := 5
    amount := 1000
    targetPrice := 2 * 10 ^ 18
    expiry := 2000
    makerAsset := 10
    takerAsset := 11 }

def hC3 : OrderHash := getOrderHash oC3

def stC3 : LedgerState :=
  { orders := updMap (fun _ => zeroOrder) hC3 oC3
    userOrders := fun _ => []
    activeOrderHashes := [hC3]
    totalOrdersCreated := 1
    totalOrdersFilled := 0
    globalTolerancePercent := 10
    balances := fun a h => if a = 10 ∧ h = contractAddr then 1000
      else if a = 11 ∧ h = 2 then 2000 else 0
    timestamp := 1000
    entered := false }

/-- Ledger with an empty active set. -/
def stEmptyActive : LedgerState :=
  { orders := fun _ => zeroOrder
    userOrders := fun _ => []
    activeOrderHashes := []
    totalOrdersCreated := 0
    totalOrdersFilled := 0
    globalTolerancePercent := 10
    balances := fun _ _ => 0
    timestamp := 1000
    entered := false }

/-- C1 (counterexample).  The claim reads the protection band as the exact
interval `[market·(1−tol), market·(1+tol)]`, but `checkPriceProtection`
computes `market·(100−tol)/100` with truncating division, which can only
lower the bound.  At market price 101 and tolerance 10 percent the exact
lower bound is `90.9` while the computed one is `⌊101·90/100⌋ = 90`, so the
order with target price 90 is outside the claimed band (first conjunct), yet
`executeOrder` succeeds, completes the order and pays out the escrow. -/
theorem executeOrder_toleranceBand_cex :
    oC1.targetPrice * 100 < 101 * (100 - oC1.priceProtection.tolerance) ∧
    ∃ s, executeOrder stC1 2 hC1 101 = .ok s ∧
      (s.orders hC1).execution.isCompleted = true ∧
      s.balances 10 2 = 10 ^ 18 ∧
      s.balances 11 oC1.user = 90 := by
  refine ⟨by norm_num [oC1, zeroOrder], _, rfl, rfl, rfl, rfl⟩

/-- C2 (code bug).  `_cancelOrder` never checks `isCompleted`, so a second
`cancelOrder` on an already-cancelled order succeeds and refunds
`amount − totalFilled` a second time: starting from a zero balance the owner
ends with twice the order's amount, drained from the contract's pooled
escrow.  The spec's invariant demands the second attempt fail with
`OrderAlreadyCompleted`. -/
theorem cancelOrder_double_refund :
    stC2.balances 10 5 = 0 ∧ (stC2.orders hC2).amount = 100 ∧
    ∃ s1 s2,
      cancelOrder stC2 5 hC2 = .ok s1 ∧
      (s1.orders hC2).execution.isCompleted = true ∧
      s1.balances 10 5 = 100 ∧
      cancelOrder s1 5 hC2 = .ok s2 ∧
      s2.balances 10 5 = 200 ∧
      s2.balances 10 contractAddr = 0 := by
  refine ⟨rfl, rfl, _, _, rfl, rfl, rfl, rfl, rfl, rfl⟩

/-- C3 (code bug).  `batchExecuteOrders` is `nonReentrant` and performs the
external self-call `this.executeOrder`, which is itself `nonReentrant`; the
guard flag is already set for the whole loop, so every inner call reverts
with the reentrancy error and the catch block runs for every entry.  A batch
containing a single, perfectly executable order therefore leaves the order
unexecuted (attempts bumped, failure reason recorded, escrow untouched,
still active), while the same `executeOrder` called directly succeeds and
completes it. -/
theorem batchExecuteOrders_reentrancy_blocked :
    batchExecuteOrders stC3 (List.replicate 11 hC3) (List.replicate 11 0) =
      .error .tooManyOrders ∧
    ∃ s, batchExecuteOrders stC3 [hC3] [0] = .ok s ∧
      (s.orders hC3).execution.attempts = 1 ∧
      (s.orders hC3).execution.failureReason = "Batch execution failed" ∧
      (s.orders hC3).execution.isCompleted = false ∧
      s.balances 10 contractAddr = stC3.balances 10 contractAddr ∧
      s.activeOrderHashes = stC3.activeOrderHashes ∧
      ∃ s2, executeOrder stC3 2 hC3 0 = .ok s2 ∧
        (s2.orders hC3).execution.isCompleted = true := by
  refine ⟨rfl, _, rfl, rfl, rfl, rfl, rfl, rfl, _, rfl, rfl⟩

/-- C9.  `calculateQueuePosition` computes exactly
`gasBid·100 + amount/1000 − ⌊(now − createdAt)/60⌋` in integer arithmetic
(all divisions are floor divisions over ℤ, matching the `uint256`
evaluation) whenever none of the checked-arithmetic guards fires: the
creation time is not in the future, `gasBid·100` and the intermediate sum
fit in `uint256`, and the time penalty does not exceed the weight sum
(otherwise the `uint256` subtraction would revert). -/
theorem calculateQueuePosition_formula (nowTs gasPrice timestamp amount : Nat)
    (h1 : timestamp ≤ nowTs)
    (h2 : gasPrice * 100 < 2 ^ 256)
    (h3 : gasPrice * 100 + amount / 1000 < 2 ^ 256)
    (h4 : (nowTs - timestamp) / 60 ≤ gasPrice * 100 + amount / 1000) :
    ∃ q, calculateQueuePosition nowTs gasPrice timestamp amount = .ok q ∧
      (q : ℤ) = (gasPrice : ℤ) * 100 + (amount : ℤ) / 1000 -
        ((nowTs : ℤ) - (timestamp : ℤ)) / 60 := by
  have e : calculateQueuePosition nowTs gasPrice timestamp amount =
      .ok (gasPrice * 100 + amount / 1000 - (nowTs - timestamp) / 60) := by
    unfold calculateQueuePosition mulCk GAS_PRIORITY_MULTIPLIER UINT256_LIMIT
    rw [if_neg (Nat.not_lt.mpr h1), if_pos h2]
    simp only [if_neg (Nat.not_le.mpr h3), if_neg (Nat.not_lt.mpr h4)]
  refine ⟨_, e, ?_⟩
  have hsub : ((nowTs : ℤ) - (timestamp : ℤ)) = ((nowTs - timestamp : Nat) : ℤ) := by
    omega
  rw [hsub]
  omega

/-- C9 (witness).  The spec's concrete instance: `gasBid = 50·1e9`,
`amount = 1e18`, creation 60 seconds (60000 ms) before `now`, giving
exactly `50·1e9·100 + 1e18/1000 − 1` with no rounding drift. -/
theorem calculateQueuePosition_formula_witness :
    (1699999940 ≤ 1700000000 ∧
     50000000000 * 100 < 2 ^ 256 ∧
     50000000000 * 100 + 10 ^ 18 / 1000 < 2 ^ 256 ∧
     (1700000000 - 1699999940) / 60 ≤ 50000000000 * 100 + 10 ^ 18 / 1000) ∧
    calculateQueuePosition 1700000000 50000000000 1699999940 (10 ^ 18) =
      .ok (50000000000 * 100 + 10 ^ 18 / 1000 - 1) ∧
    (∃ q, calculateQueuePosition 1700000000 50000000000 1699999940 (10 ^ 18) = .ok q ∧
      (q : ℤ) = (50000000000 : ℤ) * 100 + ((10 : ℤ) ^ 18) / 1000 -
        ((1700000000 : ℤ) - (1699999940 : ℤ)) / 60) :=
  ⟨⟨by norm_num, by norm_num, by norm_num, by norm_num⟩, rfl,
   calculateQueuePosition_formula 1700000000 50000000000 1699999940 (10 ^ 18)
     (by norm_num) (by norm_num) (by norm_num) (by norm_num)⟩

/-- C1 (amended).  For an existing, unexpired, not-yet-completed order with
price protection enabled, if the order's target price lies outside the
integer-arithmetic band
`[⌊market·(100−tol)/100⌋, ⌊market·(100+tol)/100⌋]` — where `tol` is the
order's own tolerance when positive and the global tolerance otherwise —
then `executeOrder` fails with the price-out-of-tolerance error.  The call
reverts, so no assets move, no order field changes, and the order stays in
the active set (an `.error` result leaves the caller's state untouched). -/
theorem executeOrder_priceOutOfTolerance (st : LedgerState) (sender : Addr)
    (h : OrderHash) (p tol : Nat)
    (hent : st.entered = false)
    (huser : (st.orders h).user ≠ 0)
    (hexp : st.timestamp < (st.orders h).expiry)
    (hcomp : (st.orders h).execution.isCompleted = false)
    (hpp : (st.orders h).priceProtection.enabled = true)
    (htol : tol = if 0 < (st.orders h).priceProtection.tolerance then
      (st.orders h).priceProtection.tolerance else st.globalTolerancePercent)
    (htle : tol ≤ 100)
    (hov : p * (100 + tol) < 2 ^ 256)
    (hout : (st.orders h).targetPrice < p * (100 - tol) / 100 ∨
      p * (100 + tol) / 100 < (st.orders h).targetPrice) :
    executeOrder st sender h p = .error .priceOutOfTolerance := by
  have hlo : mulCk p (100 - tol) = .ok (p * (100 - tol)) := by
    unfold mulCk UINT256_LIMIT
    exact if_pos (lt_of_le_of_lt (Nat.mul_le_mul_left p (by omega)) hov)
  have hhi : mulCk p (100 + tol) = .ok (p * (100 + tol)) := by
    unfold mulCk UINT256_LIMIT
    exact if_pos hov
  have hcpp : checkPriceProtection st (st.orders h) p = .ok false := by
    unfold checkPriceProtection
    rw [← htol, if_neg (Nat.not_lt.mpr htle), hlo, hhi]
    have : ¬ (p * (100 - tol) / 100 ≤ (st.orders h).targetPrice ∧
        (st.orders h).targetPrice ≤ p * (100 + tol) / 100) := by
      rcases hout with hl | hr
      · exact fun hc => absurd hc.1 (Nat.not_le.mpr hl)
      · exact fun hc => absurd hc.2 (Nat.not_le.mpr hr)
    simp [this]
  unfold executeOrder
  rw [if_neg (by rw [hent]; exact Bool.false_ne_true),
      if_neg huser, if_neg (Nat.not_le.mpr hexp),
      if_neg (by rw [hcomp]; exact Bool.false_ne_true),
      if_pos hpp, hcpp]

/-- Variant of `oC1` whose target price 89 is below even the truncated
lower bound `⌊101·90/100⌋ = 90`. -/
def oC1b : PublicOrder :=
  { zeroOrder with
    user := 5
    amount := 10 ^ 18
    targetPrice := 89
    expiry := 2000
    makerAsset := 10
    takerAsset := 11
    priceProtection := ⟨true, 10, 0, 0⟩ }

def hC1b : OrderHash := getOrderHash oC1b

def stC1b : LedgerState :=
  { orders := updMap (fun _ => zeroOrder) hC1b oC1b
    userOrders := fun _ => []
    activeOrderHashes := [hC1b]
    totalOrdersCreated := 1
    totalOrdersFilled := 0
    globalTolerancePercent := 10
    balances := fun a h => if a = 10 ∧ h = contractAddr then 10 ^ 18
      else if a = 11 ∧ h = 2 then 89 else 0
    timestamp := 1000
    entered := false }

/-- C1 (witness).  Target price 89 at market 101 with tolerance 10 is below
the truncated lower bound 90, and `executeOrder` indeed fails with the
price-out-of-tolerance error. -/
theorem executeOrder_priceOutOfTolerance_witness :
    (stC1b.orders hC1b).priceProtection.enabled = true ∧
    (stC1b.orders hC1b).targetPrice < 101 * (100 - 10) / 100 ∧
    executeOrder stC1b 2 hC1b 101 = .error .priceOutOfTolerance :=
  ⟨rfl, by decide,
   executeOrder_priceOutOfTolerance stC1b 2 hC1b 101 10 rfl (by decide) (by decide)
     rfl rfl (by decide) (by decide) (by decide) (Or.inl (by decide))⟩

/-- C8.  For a spec passing every data-model invariant (sender is the order's
user, positive amount and target price, unexpired, distinct assets,
cross-chain wrapped token present, fresh identifier, and queue-arithmetic
guards), `createOrder` behaves as claimed: when `balanceCheck.enabled` and
the owner's live balance is below `amount` it fails with the
insufficient-balance error; when the balance suffices it succeeds, moves
exactly `amount` of the maker asset from the owner into the contract's
escrow, records the order (escrowed amount = `amount`), inserts it into the
active set, and re-submitting the identical defining fields then fails with
the duplicate-order error, leaving all state untouched (revert). -/
theorem createOrder_escrow_and_duplicate (st : LedgerState) (sender : Addr)
    (order : PublicOrder)
    (hent : st.entered = false)
    (hsender : sender ≠ 0)
    (huser : order.user = sender)
    (hamt : 0 < order.amount)
    (htp : 0 < order.targetPrice)
    (hexp : st.timestamp < order.expiry)
    (hassets : order.makerAsset ≠ order.takerAsset)
    (hchain : order.sourceChain = order.targetChain ∨ order.wrappedToken.wrappedToken ≠ 0)
    (hnew : (st.orders (getOrderHash order)).user = 0)
    (hsc : sender ≠ contractAddr)
    (hts : order.timestamp ≤ st.timestamp)
    (hg1 : order.gasPrice * 100 < 2 ^ 256)
    (hg2 : order.gasPrice * 100 + order.amount / 1000 < 2 ^ 256)
    (hg3 : (st.timestamp - order.timestamp) / 60 ≤ order.gasPrice * 100 + order.amount / 1000) :
    (order.balanceCheck.enabled = true →
      st.balances order.makerAsset sender < order.amount →
      createOrder st sender order = .error .insufficientBalance) ∧
    (order.amount ≤ st.balances order.makerAsset sender →
      ∃ st2, createOrder st sender order = .ok (getOrderHash order, st2) ∧
        st2.balances order.makerAsset contractAddr =
          st.balances order.makerAsset contractAddr + order.amount ∧
        st2.balances order.makerAsset sender + order.amount =
          st.balances order.makerAsset sender ∧
        (st2.orders (getOrderHash order)).amount = order.amount ∧
        (st2.orders (getOrderHash order)).user = sender ∧
        getOrderHash order ∈ st2.activeOrderHashes ∧
        createOrder st2 sender order = .error .orderAlreadyExists) := by
  have hqp : ∃ qp, calculateQueuePosition st.timestamp order.gasPrice
      order.timestamp order.amount = .ok qp := by
    obtain ⟨q, hq, -⟩ := calculateQueuePosition_formula st.timestamp order.gasPrice
      order.timestamp order.amount hts hg1 hg2 hg3
    exact ⟨q, hq⟩
  constructor
  · intro hbc hlow
    unfold createOrder
    rw [if_neg (by rw [hent]; exact Bool.false_ne_true),
        if_neg (by rw [huser]; exact fun hne => hne rfl),
        if_neg (Nat.pos_iff_ne_zero.mp hamt),
        if_neg (Nat.pos_iff_ne_zero.mp htp),
        if_neg (Nat.not_le.mpr hexp),
        if_neg hassets,
        if_neg (by rcases hchain with hc | hc
                   · exact fun hand => hand.1 hc
                   · exact fun hand => hc hand.2),
        if_neg (by rw [hnew]; exact fun hne => hne rfl),
        if_pos ⟨hbc, hlow⟩]
  · intro hbal
    obtain ⟨qp, hqp⟩ := hqp
    have htr : tryTransfer st.balances order.makerAsset sender contractAddr order.amount =
        some (fun a h2 =>
          if a = order.makerAsset ∧ h2 = contractAddr then
            (if a = order.makerAsset ∧ h2 = sender then st.balances a h2 - order.amount
             else st.balances a h2) + order.amount
          else if a = order.makerAsset ∧ h2 = sender then st.balances a h2 - order.amount
            else st.balances a h2) := by
      unfold tryTransfer
      rw [if_pos hbal]
    have hmain : createOrder st sender order = .ok (getOrderHash order,
        { st with
          balances := fun a h2 =>
            if a = order.makerAsset ∧ h2 = contractAddr then
              (if a = order.makerAsset ∧ h2 = sender then st.balances a h2 - order.amount
               else st.balances a h2) + order.amount
            else if a = order.makerAsset ∧ h2 = sender then st.balances a h2 - order.amount
              else st.balances a h2
          orders := updMap st.orders (getOrderHash order)
            { order with queuePosition := qp, timestamp := st.timestamp }
          userOrders := updMap st.userOrders sender
            (st.userOrders sender ++ [getOrderHash order])
          activeOrderHashes := st.activeOrderHashes ++ [getOrderHash order]
          totalOrdersCreated := st.totalOrdersCreated + 1 }) := by
      unfold createOrder
      rw [if_neg (by rw [hent]; exact Bool.false_ne_true),
          if_neg (by rw [huser]; exact fun hne => hne rfl),
          if_neg (Nat.pos_iff_ne_zero.mp hamt),
          if_neg (Nat.pos_iff_ne_zero.mp htp),
          if_neg (Nat.not_le.mpr hexp),
          if_neg hassets,
          if_neg (by rcases hchain with hc | hc
                     · exact fun hand => hand.1 hc
                     · exact fun hand => hc hand.2),
          if_neg (by rw [hnew]; exact fun hne => hne rfl),
          if_neg (fun hand => Nat.not_le.mpr hand.2 hbal),
          htr, hqp]
    refine ⟨_, hmain, ?_, ?_, ?_, ?_, ?_, ?_⟩
    · simp [Ne.symm hsc]
    · simp [hsc, Nat.sub_add_cancel hbal]
    · simp [updMap]
    · simp [updMap, huser]
    · exact List.mem_append_right _ (List.mem_singleton.mpr rfl)
    · unfold createOrder
      rw [if_neg (by rw [hent]; exact Bool.false_ne_true),
          if_neg (by rw [huser]; exact fun hne => hne rfl),
          if_neg (Nat.pos_iff_ne_zero.mp hamt),
          if_neg (Nat.pos_iff_ne_zero.mp htp),
          if_neg (Nat.not_le.mpr hexp),
          if_neg hassets,
          if_neg (by rcases hchain with hc | hc
                     · exact fun hand => hand.1 hc
                     · exact fun hand => hc hand.2),
          if_pos (by simp [updMap, huser, hsender])]

/-- Valid fresh order spec for the creation witness: balance checking
enabled, owner 5 funded with five times the amount. -/
def oC8 : PublicOrder :=
  { zeroOrder with
    user := 5
    amount := 1000
    targetPrice := 3
    gasPrice := 2
    timestamp := 900
    expiry := 2000
    makerAsset := 10
    takerAsset := 11
    balanceCheck := ⟨true, 0, false, false, 0⟩ }

def stC8 : LedgerState :=
  { orders := fun _ => zeroOrder
    userOrders := fun _ => []
    activeOrderHashes := []
    totalOrdersCreated := 0
    totalOrdersFilled := 0
    globalTolerancePercent := 10
    balances := fun a h => if a = 10 ∧ h = 5 then 5000 else 0
    timestamp := 1000
    entered := false }

/-- C8 (witness).  Creating `oC8` succeeds, escrows exactly its amount with
the contract, and re-submitting the identical fields fails as a duplicate. -/
theorem createOrder_escrow_and_duplicate_witness :
    oC8.amount ≤ stC8.balances oC8.makerAsset 5 ∧
    ∃ st2, createOrder stC8 5 oC8 = .ok (getOrderHash oC8, st2) ∧
      st2.balances oC8.makerAsset contractAddr =
        stC8.balances oC8.makerAsset contractAddr + oC8.amount ∧
      st2.balances oC8.makerAsset 5 + oC8.amount = stC8.balances oC8.makerAsset 5 ∧
      (st2.orders (getOrderHash oC8)).amount = oC8.amount ∧
      (st2.orders (getOrderHash oC8)).user = 5 ∧
      getOrderHash oC8 ∈ st2.activeOrderHashes ∧
      createOrder st2 5 oC8 = .error .orderAlreadyExists :=
  ⟨by decide,
   (createOrder_escrow_and_duplicate stC8 5 oC8 rfl (by decide) rfl (by decide)
     (by decide) (by decide) (by decide) (Or.inl rfl) rfl (by decide) (by decide)
     (by decide) (by decide) (by decide)).2 (by decide)⟩

/-- Membership in the insertion step of the priority sort. -/
lemma mem_insertDesc (key : OrderHash → Nat) (x a : OrderHash) :
    ∀ l : List OrderHash, a ∈ insertDesc key x l ↔ a = x ∨ a ∈ l
  | [] => by simp [insertDesc]
  | y :: ys => by
    unfold insertDesc
    by_cases hc : key y < key x
    · rw [if_pos hc]
      simp [List.mem_cons]
    · rw [if_neg hc, List.mem_cons, List.mem_cons, mem_insertDesc key x a ys]
      tauto

lemma length_insertDesc (key : OrderHash → Nat) (x : OrderHash) :
    ∀ l : List OrderHash, (insertDesc key x l).length = l.length + 1
  | [] => rfl
  | y :: ys => by
    unfold insertDesc
    by_cases hc : key y < key x
    · rw [if_pos hc]
      rfl
    · rw [if_neg hc]
      simp [length_insertDesc key x ys]

/-- Inserting into a descending-sorted list keeps it descending-sorted. -/
lemma pairwise_insertDesc (key : OrderHash → Nat) (x : OrderHash) :
    ∀ l : List OrderHash, l.Pairwise (fun a b => key b ≤ key a) →
      (insertDesc key x l).Pairwise (fun a b => key b ≤ key a)
  | [], _ => by simp [insertDesc]
  | y :: ys, hl => by
    rcases List.pairwise_cons.mp hl with ⟨hy, hys⟩
    unfold insertDesc
    by_cases hc : key y < key x
    · rw [if_pos hc]
      refine List.pairwise_cons.mpr ⟨?_, hl⟩
      intro z hz
      rcases List.mem_cons.mp hz with rfl | hz
      · exact le_of_lt hc
      · exact le_trans (hy z hz) (le_of_lt hc)
    · rw [if_neg hc]
      refine List.pairwise_cons.mpr ⟨?_, pairwise_insertDesc key x ys hys⟩
      intro z hz
      rcases (mem_insertDesc key x z ys).mp hz with rfl | hz
      · exact Nat.not_lt.mp hc
      · exact hy z hz

/-- Stability: inserting `x` into a descending-sorted list puts it after
every element of equal key, so per-key filters grow by appending `x`. -/
lemma filter_insertDesc (key : OrderHash → Nat) (x : OrderHash) (k : Nat) :
    ∀ l : List OrderHash, l.Pairwise (fun a b => key b ≤ key a) →
      (insertDesc key x l).filter (fun h => key h == k) =
        l.filter (fun h => key h == k) ++ (if key x = k then [x] else [])
  | [], _ => by
    by_cases hx : key x = k
    · simp [insertDesc, hx]
    · simp [insertDesc, hx]
  | y :: ys, hl => by
    rcases List.pairwise_cons.mp hl with ⟨hy, hys⟩
    unfold insertDesc
    by_cases hc : key y < key x
    · rw [if_pos hc]
      by_cases hx : key x = k
      · have hempty : (y :: ys).filter (fun h => key h == k) = [] := by
          refine List.filter_eq_nil_iff.mpr ?_
          intro a ha
          have hle : key a ≤ key y := by
            rcases List.mem_cons.mp ha with rfl | ha
            · exact le_refl _
            · exact hy a ha
          have hlt : key a < k := lt_of_le_of_lt hle (hx ▸ hc)
          simp [Nat.ne_of_lt hlt]
        rw [List.filter_cons_of_pos (by simp [hx]), hempty, if_pos hx]
        simp
      · rw [List.filter_cons_of_neg (by simp [hx]), if_neg hx, List.append_nil]
    · rw [if_neg hc]
      rw [List.filter_cons, List.filter_cons,
          filter_insertDesc key x k ys hys]
      by_cases hyk : key y = k
      · simp [hyk]
      · simp [hyk]

/-- Behaviour of the whole insertion-sort loop, by induction over the input
with a sorted accumulator: the result is descending-sorted, has the combined
length, and its per-key filters are the accumulator's followed by the
input's (stability). -/
lemma foldl_insertDesc_spec (key : OrderHash → Nat) :
    ∀ (l acc : List OrderHash), acc.Pairwise (fun a b => key b ≤ key a) →
      (l.foldl (fun acc x => insertDesc key x acc) acc).Pairwise
          (fun a b => key b ≤ key a) ∧
      (l.foldl (fun acc x => insertDesc key x acc) acc).length =
          acc.length + l.length ∧
      ∀ k, (l.foldl (fun acc x => insertDesc key x acc) acc).filter
            (fun h => key h == k) =
          acc.filter (fun h => key h == k) ++ l.filter (fun h => key h == k)
  | [], acc, hacc => ⟨hacc, rfl, fun k => by simp⟩
  | x :: xs, acc, hacc => by
    simp only [List.foldl_cons]
    obtain ⟨hp, hlen, hfil⟩ := foldl_insertDesc_spec key xs (insertDesc key x acc)
      (pairwise_insertDesc key x acc hacc)
    refine ⟨hp, ?_, ?_⟩
    · rw [hlen, length_insertDesc]
      simp [Nat.add_assoc, Nat.add_comm 1]
    · intro k
      rw [hfil k, filter_insertDesc key x k acc hacc, List.filter_cons]
      by_cases hx : key x = k
      · rw [if_pos hx, if_pos (by simp [hx])]
        simp
      · rw [if_neg hx, if_neg (by simp [hx])]
        simp

/-- C7 (amended).  For `limit` at most the active count (larger limits
revert, see the counterexample), `getOrdersByPriority` returns exactly
`limit` identifiers: the first `limit` entries of the active list, ordered
by `queuePosition` descending, and — the claimed tie-break — for every
priority value the sub-sequence of entries with that priority equals the
corresponding sub-sequence of the (insertion-ordered) active list, i.e.
equal-priority orders appear in insertion order. -/
theorem getOrdersByPriority_sorted_stable (st : LedgerState) (limit : Nat)
    (hlim : limit ≤ st.activeOrderHashes.length) :
    ∃ l, getOrdersByPriority st limit = .ok l ∧
      l.length = limit ∧
      l.Pairwise (fun a b =>
        (st.orders b).queuePosition ≤ (st.orders a).queuePosition) ∧
      ∀ k, l.filter (fun h => (st.orders h).queuePosition == k) =
        (st.activeOrderHashes.take limit).filter
          (fun h => (st.orders h).queuePosition == k) := by
  have hok : getOrdersByPriority st limit = .ok ((st.activeOrderHashes.take limit).foldl
      (fun acc x => insertDesc (fun h => (st.orders h).queuePosition) x acc) []) := by
    unfold getOrdersByPriority
    rw [if_neg (Nat.not_lt.mpr hlim)]
  obtain ⟨hp, hlen, hfil⟩ := foldl_insertDesc_spec (fun h => (st.orders h).queuePosition)
    (st.activeOrderHashes.take limit) [] List.Pairwise.nil
  refine ⟨_, hok, ?_, hp, fun k => by simpa using hfil k⟩
  rw [hlen]
  simp [List.length_take, Nat.min_eq_left hlim]

/-- Three active orders with priorities 5, 9, 5: the first and third tie. -/
def hW1 : OrderHash := ⟨5, 1, 1, 0, 0, 0, 0, 0, 10, 11⟩

def hW2 : OrderHash := ⟨5, 2, 1, 0, 0, 0, 0, 0, 10, 11⟩

def hW3 : OrderHash := ⟨5, 3, 1, 0, 0, 0, 0, 0, 10, 11⟩

def stC7w : LedgerState :=
  { orders := fun h =>
      if h = hW1 then { zeroOrder with user := 5, queuePosition := 5 }
      else if h = hW2 then { zeroOrder with user := 5, queuePosition := 9 }
      else if h = hW3 then { zeroOrder with user := 5, queuePosition := 5 }
      else zeroOrder
    userOrders := fun _ => []
    activeOrderHashes := [hW1, hW2, hW3]
    totalOrdersCreated := 3
    totalOrdersFilled := 0
    globalTolerancePercent := 10
    balances := fun _ _ => 0
    timestamp := 1000
    entered := false }

/-- C7 (witness).  The amended statement applied to the three-order state
with a priority tie. -/
theorem getOrdersByPriority_sorted_stable_witness :
    3 ≤ stC7w.activeOrderHashes.length ∧
    ∃ l, getOrdersByPriority stC7w 3 = .ok l ∧
      l.length = 3 ∧
      l.Pairwise (fun a b =>
        (stC7w.orders b).queuePosition ≤ (stC7w.orders a).queuePosition) ∧
      ∀ k, l.filter (fun h => (stC7w.orders h).queuePosition == k) =
        (stC7w.activeOrderHashes.take 3).filter
          (fun h => (stC7w.orders h).queuePosition == k) :=
  ⟨by decide, getOrdersByPriority_sorted_stable stC7w 3 (by decide)⟩

/-- C7 (counterexample).  The claim promises a result for every limit and
every active set, but `getOrdersByPriority` requires
`limit ≤ activeOrderHashes.length` and reverts otherwise: with an empty
active set even `limit = 1` fails instead of returning an empty (or short)
list. -/
theorem getOrdersByPriority_limit_cex :
    stEmptyActive.activeOrderHashes = [] ∧
    getOrdersByPriority stEmptyActive 1 = .error .limitTooHigh :=
  ⟨rfl, rfl⟩

end OrderProtocol

namespace PriceOracle

abbrev Addr := Nat

def UINT256_LIMIT : Nat := 2 ^ 256

/-- `BASIS_POINTS = 10000`. -/
def BASIS_POINTS : Nat := 10000

/-- `PRICE_PRECISION = 1e18`. -/
def PRICE_PRECISION : Nat := 10 ^ 18

/-- `MAX_DEVIATION = 2000` basis points. -/
def MAX_DEVIATION : Nat := 2000

/-- `MAJOR_TOLERANCE = 1000` basis points, the hard-coded default. -/
def MAJOR_TOLERANCE : Nat := 1000

inductive OracleErr where
  | paused
  | invalidOrderPrice
  | pairNotFound
  | priceUnavailable
  | toleranceTooHigh
  | arrayLengthMismatch
  | tooManyOrders
  | divisionByZero
  | underflow
  | overflow
deriving DecidableEq, Repr

/-- Checked `uint256` multiplication. -/
def mulCk (a b : Nat) : Except OracleErr Nat :=
  if a * b < UINT256_LIMIT then .ok (a * b) else .error .overflow

/-- `10 ** decimals`, reverting when the power exceeds `uint256` (decimals
above 77). -/
def powTenCk (d : Nat) : Except OracleErr Nat :=
  if 10 ^ d < UINT256_LIMIT then .ok (10 ^ d) else .error .overflow

structure PriceFeed where
  oracle : Addr
  heartbeat : Nat
  deviationThreshold : Nat
  isActive : Bool
  isInverted : Bool
deriving DecidableEq, Repr

structure TokenPair where
  baseToken : Addr
  quoteToken : Addr
  primaryFeed : PriceFeed
  secondaryFeed : PriceFeed
  lastValidPrice : Nat
  lastUpdateTime : Nat
deriving DecidableEq, Repr

structure PriceData where
  price : Nat
  timestamp : Nat
  roundId : Nat
  isValid : Bool
deriving DecidableEq, Repr

structure PriceValidation where
  withinTolerance : Bool
  orderPrice : Nat
  marketPrice : Nat
  deviation : Nat
  validationResult : String
deriving DecidableEq, Repr

/-- One `latestRoundData` answer of a Chainlink aggregator; `rawPrice` is the
`int256` answer. -/
structure FeedReading where
  roundId : Nat
  rawPrice : Int
  startedAt : Nat
  updatedAt : Nat
  answeredInRound : Nat
deriving DecidableEq, Repr

/-- The external feed world: `latestRoundData` per oracle address (`none`
models a call that reverts, which the contract catches), and the feed's
`decimals`. -/
structure FeedEnv where
  latestRoundData : Addr → Option FeedReading
  decimals : Addr → Nat

/-- Contract storage plus environment; pair ids are the `(base, quote)`
address pair (injective `keccak256(abi.encodePacked ...)` idealisation). -/
structure OracleState where
  tokenPairs : Addr × Addr → TokenPair
  tokenTolerances : Addr → Nat
  priceHistory : Addr × Addr → PriceData
  globalTolerancePercent : Nat
  priceUpdateInterval : Nat
  maxPriceAge : Nat
  emergencyPaused : Bool
  timestamp : Nat
  env : FeedEnv

/-- Point update of a total map. -/
def updMap {α β : Type} [DecidableEq α] (f : α → β) (k : α) (v : β) : α → β :=
  fun k' => if k' = k then v else f k'

/-- `_getPriceFromFeed` (PriceProtectionOracle.sol lines 396-430).  The
short-circuiting validation mirrors the source: a non-positive answer or a
zero `updatedAt` is rejected before the staleness subtraction is evaluated,
so the only reachable panic is a reading dated in the future.  A valid
reading is normalised by the truncating factor `1e18 / 10 ** decimals` and
inverted afterwards when the feed is inverted and the price is non-zero. -/
def getPriceFromFeed (st : OracleState) (feed : PriceFeed) :
    Except OracleErr (Nat × Bool) :=
  if ¬ (feed.isActive = true) ∨ feed.oracle = 0 then .ok (0, false)
  else match st.env.latestRoundData feed.oracle with
  | none => .ok (0, false)
  | some r =>
    if r.rawPrice ≤ 0 then .ok (0, false)
    else if r.updatedAt = 0 then .ok (0, false)
    else if st.timestamp < r.updatedAt then .error .underflow
    else if feed.heartbeat < st.timestamp - r.updatedAt then .ok (0, false)
    else match powTenCk (st.env.decimals feed.oracle) with
    | .error e => .error e
    | .ok p10 =>
      match mulCk r.rawPrice.toNat (PRICE_PRECISION / p10) with
      | .error e => .error e
      | .ok price0 =>
        let price := if feed.isInverted = true ∧ 0 < price0 then
          PRICE_PRECISION * PRICE_PRECISION / price0 else price0
        .ok (price, true)

/-- `_getCurrentPriceInternal` (lines 369-394): primary feed, then secondary
when the primary reading is invalid and the secondary is active, then the
cached `lastValidPrice` when it is positive and younger than `maxPriceAge`. -/
def getCurrentPriceInternal (st : OracleState) (b q : Addr) :
    Except OracleErr (Nat × Bool) :=
  if (st.tokenPairs (b, q)).baseToken = 0 then .error .pairNotFound
  else match getPriceFromFeed st (st.tokenPairs (b, q)).primaryFeed with
  | .error e => .error e
  | .ok (p1, v1) =>
    match (if v1 = false ∧ (st.tokenPairs (b, q)).secondaryFeed.isActive = true then
        getPriceFromFeed st (st.tokenPairs (b, q)).secondaryFeed
      else .ok (p1, v1)) with
    | .error e => .error e
    | .ok (p2, v2) =>
      if v2 = false ∧ 0 < (st.tokenPairs (b, q)).lastValidPrice then
        if st.timestamp < (st.tokenPairs (b, q)).lastUpdateTime then .error .underflow
        else if st.timestamp - (st.tokenPairs (b, q)).lastUpdateTime ≤ st.maxPriceAge then
          .ok ((st.tokenPairs (b, q)).lastValidPrice, true)
        else .ok (p2, v2)
      else .ok (p2, v2)

/-- `getCurrentPrice` (lines 210-218): the external entry point adds the
`notPaused` modifier. -/
def getCurrentPrice (st : OracleState) (b q : Addr) :
    Except OracleErr (Nat × Bool) :=
  if st.emergencyPaused = true then .error .paused
  else getCurrentPriceInternal st b q

/-- `_getDefaultTolerance` (lines 458-467): the per-token override when set,
otherwise the hard-coded `MAJOR_TOLERANCE` constant. -/
def getDefaultTolerance (st : OracleState) (token : Addr) : Nat :=
  if 0 < st.tokenTolerances token then st.tokenTolerances token else MAJOR_TOLERANCE

/-- `validateOrderPrice` (lines 245-298).  Note the deviation division by
`marketPrice` panics when the (valid) market price is zero. -/
def validateOrderPrice (st : OracleState) (baseToken quoteToken : Addr)
    (orderPrice customTolerance : Nat) : Except OracleErr PriceValidation :=
  if orderPrice = 0 then .error .invalidOrderPrice
  else match getCurrentPriceInternal st baseToken quoteToken with
  | .error e => .error e
  | .ok (marketPrice, isValid) =>
    if ¬ (isValid = true) then .error .priceUnavailable
    else
      let toleranceToUse := if 0 < customTolerance then customTolerance
        else getDefaultTolerance st baseToken
      if MAX_DEVIATION < toleranceToUse then .error .toleranceTooHigh
      else match mulCk marketPrice (BASIS_POINTS - toleranceToUse) with
      | .error e => .error e
      | .ok lo => match mulCk marketPrice (BASIS_POINTS + toleranceToUse) with
        | .error e => .error e
        | .ok hi =>
          let lowerBound := lo / BASIS_POINTS
          let upperBound := hi / BASIS_POINTS
          let isWithinTolerance :=
            decide (lowerBound ≤ orderPrice ∧ orderPrice ≤ upperBound)
          if marketPrice = 0 then .error .divisionByZero
          else match (if marketPrice < orderPrice then
              mulCk (orderPrice - marketPrice) BASIS_POINTS
            else mulCk (marketPrice - orderPrice) BASIS_POINTS) with
          | .error e => .error e
          | .ok dv =>
            .ok { withinTolerance := isWithinTolerance
                  orderPrice := orderPrice
                  marketPrice := marketPrice
                  deviation := dv / marketPrice
                  validationResult := if isWithinTolerance then "WITHIN_TOLERANCE"
                    else "OUTSIDE_TOLERANCE" }

/-- The loop of `batchValidateOrderPrices` (lines 321-328): each entry is an
external self-call of `validateOrderPrice` with NO try/catch, so the first
failing entry aborts the whole batch. -/
def validateLoop (st : OracleState) :
    List Addr → List Addr → List Nat → List Nat →
    Except OracleErr (List PriceValidation)
  | b :: bs, q :: qs, p :: ps, t :: ts =>
    (match validateOrderPrice st b q p t with
     | .error e => .error e
     | .ok v =>
       match validateLoop st bs qs ps ts with
       | .error e => .error e
       | .ok vs => .ok (v :: vs))
  | _, _, _, _ => .ok []

/-- `batchValidateOrderPrices` (lines 308-331). -/
def batchValidateOrderPrices (st : OracleState) (baseTokens quoteTokens : List Addr)
    (orderPrices tolerances : List Nat) : Except OracleErr (List PriceValidation) :=
  if baseTokens.length ≠ quoteTokens.length then .error .arrayLengthMismatch
  else if baseTokens.length ≠ orderPrices.length then .error .arrayLengthMismatch
  else if baseTokens.length ≠ tolerances.length then .error .arrayLengthMismatch
  else if 20 < baseTokens.length then .error .tooManyOrders
  else validateLoop st baseTokens quoteTokens orderPrices tolerances

/-- `_updatePriceForPair` (lines 437-456): cache the current price (whatever
it is) whenever the read reports it valid. -/
def updatePriceForPair (st : OracleState) (b q : Addr) :
    Except OracleErr OracleState :=
  match getCurrentPriceInternal st b q with
  | .error e => .error e
  | .ok (newPrice, isValid) =>
    if isValid = true then
      let pair := st.tokenPairs (b, q)
      .ok { st with
            tokenPairs := updMap st.tokenPairs (b, q)
              { pair with lastValidPrice := newPrice, lastUpdateTime := st.timestamp }
            priceHistory := updMap st.priceHistory (b, q)
              { price := newPrice, timestamp := st.timestamp, roundId := 0, isValid := true } }
    else .ok st

/-! Concrete oracle states for witnesses and counterexamples. -/

def zeroFeed : PriceFeed := ⟨0, 0, 0, false, false⟩

/-- The all-zero pair a Solidity mapping returns for an absent key. -/
def zeroPair : TokenPair := ⟨0, 0, zeroFeed, zeroFeed, 0, 0⟩

/-- Feed with heartbeat 500 on the given oracle address. -/
def mkFeed (orc : Addr) (act : Bool) : PriceFeed := ⟨orc, 500, 500, act, false⟩

/-- Oracle state at time 10000 with four pairs: `(2,3)` has a fresh primary
(price 1000); `(20,21)` has dead feeds and no cache; `(4,5)` has a stale
primary (age 600 > heartbeat 500) and a fresh secondary (price 777);
`(30,31)` has a fresh primary whose feed reports 19 decimals.  The admin has
lowered the settable global tolerance to 300 bps. -/
def stOr : OracleState :=
  { tokenPairs := fun p =>
      if p = (2, 3) then ⟨2, 3, mkFeed 7 true, zeroFeed, 0, 0⟩
      else if p = (20, 21) then ⟨20, 21, mkFeed 0 false, zeroFeed, 0, 0⟩
      else if p = (4, 5) then ⟨4, 5, mkFeed 8 true, mkFeed 9 true, 0, 0⟩
      else if p = (30, 31) then ⟨30, 31, mkFeed 12 true, zeroFeed, 0, 0⟩
      else zeroPair
    tokenTolerances := fun _ => 0
    priceHistory := fun _ => ⟨0, 0, 0, false⟩
    globalTolerancePercent := 300
    priceUpdateInterval := 300
    maxPriceAge := 900
    emergencyPaused := false
    timestamp := 10000
    env :=
      { latestRoundData := fun a =>
          if a = 7 then some ⟨1, 1000, 0, 10000, 1⟩
          else if a = 8 then some ⟨1, 555, 0, 9400, 1⟩
          else if a = 9 then some ⟨1, 777, 0, 10000, 1⟩
          else if a = 12 then some ⟨1, 123, 0, 10000, 1⟩
          else none
        decimals := fun a => if a = 12 then 19 else 18 } }

/-- C4 (counterexample).  `batchValidateOrderPrices` has no try/catch around
the per-entry `validateOrderPrice` self-call, so a failing entry aborts the
whole batch.  Here entry 0 validates fine on its own, entry 1's pair has no
live feed and no cache: the batch of two returns the price-unavailable error
and entry 0's result is never returned, contradicting the claim that the
remaining entries are still evaluated and their results returned. -/
theorem batchValidateOrderPrices_abort_cex :
    (∃ v, validateOrderPrice stOr 2 3 1000 0 = .ok v) ∧
    batchValidateOrderPrices stOr [2, 20] [3, 21] [1000, 50] [0, 0] =
      .error .priceUnavailable :=
  ⟨⟨_, rfl⟩, rfl⟩

/-- C6 (counterexample).  With no override for the token and no call-supplied
tolerance the claim resolves to the admin-settable global default (here
lowered to 300 bps, band `[970, 1030]` around market 1000), under which an
order price of 1080 is out of tolerance; but `_getDefaultTolerance` ignores
`globalTolerancePercent` and falls back to the constant `MAJOR_TOLERANCE`
(1000 bps), so the code reports `withinTolerance = true`. -/
theorem validateOrderPrice_globalTolerance_cex :
    stOr.globalTolerancePercent = 300 ∧
    stOr.tokenTolerances 2 = 0 ∧
    1000 * (BASIS_POINTS + 300) / BASIS_POINTS < 1080 ∧
    ∃ v, validateOrderPrice stOr 2 3 1080 0 = .ok v ∧
      v.withinTolerance = true ∧ v.marketPrice = 1000 :=
  ⟨rfl, rfl, by decide, _, rfl, rfl, rfl⟩

/-- Spine of the batch loop: when every entry validates, the loop returns
exactly the entry-wise results; the first failing entry makes the whole loop
fail. -/
lemma validateLoop_spec (st : OracleState) :
    ∀ (bs qs : List Addr) (ps ts : List Nat),
      bs.length = qs.length → bs.length = ps.length → bs.length = ts.length →
      ((∀ i, i < bs.length → ∃ v, validateOrderPrice st (bs.getD i 0) (qs.getD i 0)
          (ps.getD i 0) (ts.getD i 0) = .ok v) →
        ∃ vs, validateLoop st bs qs ps ts = .ok vs ∧ vs.length = bs.length ∧
          ∀ i, i < bs.length →
            validateOrderPrice st (bs.getD i 0) (qs.getD i 0) (ps.getD i 0) (ts.getD i 0) =
              .ok (vs.getD i ⟨false, 0, 0, 0, ""⟩)) ∧
      (∀ i e, i < bs.length →
        validateOrderPrice st (bs.getD i 0) (qs.getD i 0) (ps.getD i 0) (ts.getD i 0) =
          .error e →
        ∃ e2, validateLoop st bs qs ps ts = .error e2)
  | [], qs, ps, ts, h1, h2, h3 => by
    constructor
    · intro _
      exact ⟨[], by cases qs <;> cases ps <;> cases ts <;> simp_all [validateLoop], rfl,
        fun i hi => absurd hi (Nat.not_lt_zero i)⟩
    · intro i e hi
      exact absurd hi (Nat.not_lt_zero i)
  | b :: bs, [], ps, ts, h1, h2, h3 => by simp at h1
  | b :: bs, q :: qs, [], ts, h1, h2, h3 => by simp at h2
  | b :: bs, q :: qs, p :: ps, [], h1, h2, h3 => by simp at h3
  | b :: bs, q :: qs, p :: ps, t :: ts, h1, h2, h3 => by
    obtain ⟨ihok, iherr⟩ := validateLoop_spec st bs qs ps ts
      (by simpa using h1) (by simpa using h2) (by simpa using h3)
    constructor
    · intro hall
      obtain ⟨v0, hv0⟩ := hall 0 (Nat.succ_pos _)
      obtain ⟨vs, hvs, hlen, hpt⟩ := ihok (fun i hi => by
        simpa using hall (i + 1) (Nat.succ_lt_succ hi))
      refine ⟨v0 :: vs, ?_, by simpa using hlen, ?_⟩
      · unfold validateLoop
        rw [show validateOrderPrice st b q p t =
            .ok v0 from by simpa using hv0, hvs]
      · intro i hi
        cases i with
        | zero => simpa using hv0
        | succ j => simpa using hpt j (by simpa using hi)
    · intro i e hi herr
      cases i with
      | zero =>
        refine ⟨e, ?_⟩
        unfold validateLoop
        rw [show validateOrderPrice st b q p t = .error e from by simpa using herr]
      | succ j =>
        obtain ⟨e2, he2⟩ := iherr j e (by simpa using hi) (by simpa using herr)
        cases hv : validateOrderPrice st b q p t with
        | error e3 =>
          refine ⟨e3, ?_⟩
          unfold validateLoop
          rw [hv]
        | ok v =>
          refine ⟨e2, ?_⟩
          unfold validateLoop
          rw [hv, he2]

/-- C4 (amended).  `batchValidateOrderPrices` is bounded to 20 entries
(larger batches fail with the too-many-orders error) and evaluates the
entries in order, each with exactly the result `validateOrderPrice` gives it
alone; but the entries are NOT isolated: since the loop has no try/catch,
any failing entry aborts the entire batch with an error and no results are
returned.  Partial isolation survives only in the all-succeed case. -/
theorem batchValidateOrderPrices_spec (st : OracleState)
    (bs qs : List Addr) (ps ts : List Nat)
    (hl1 : bs.length = qs.length) (hl2 : bs.length = ps.length)
    (hl3 : bs.length = ts.length) :
    (20 < bs.length →
      batchValidateOrderPrices st bs qs ps ts = .error .tooManyOrders) ∧
    (bs.length ≤ 20 →
      ((∀ i, i < bs.length → ∃ v, validateOrderPrice st (bs.getD i 0) (qs.getD i 0)
          (ps.getD i 0) (ts.getD i 0) = .ok v) →
        ∃ vs, batchValidateOrderPrices st bs qs ps ts = .ok vs ∧
          vs.length = bs.length ∧
          ∀ i, i < bs.length →
            validateOrderPrice st (bs.getD i 0) (qs.getD i 0) (ps.getD i 0) (ts.getD i 0) =
              .ok (vs.getD i ⟨false, 0, 0, 0, ""⟩)) ∧
      (∀ i e, i < bs.length →
        validateOrderPrice st (bs.getD i 0) (qs.getD i 0) (ps.getD i 0) (ts.getD i 0) =
          .error e →
        ∃ e2, batchValidateOrderPrices st bs qs ps ts = .error e2)) := by
  have hbatch : ∀ hle : bs.length ≤ 20,
      batchValidateOrderPrices st bs qs ps ts = validateLoop st bs qs ps ts := by
    intro hle
    unfold batchValidateOrderPrices
    rw [if_neg (fun hne => hne hl1), if_neg (fun hne => hne hl2),
        if_neg (fun hne => hne hl3), if_neg (Nat.not_lt.mpr hle)]
  obtain ⟨hok, herr⟩ := validateLoop_spec st bs qs ps ts hl1 hl2 hl3
  refine ⟨?_, fun hle => ⟨?_, ?_⟩⟩
  · intro hgt
    unfold batchValidateOrderPrices
    rw [if_neg (fun hne => hne hl1), if_neg (fun hne => hne hl2),
        if_neg (fun hne => hne hl3), if_pos hgt]
  · intro hall
    obtain ⟨vs, hvs, hlen, hpt⟩ := hok hall
    exact ⟨vs, (hbatch hle).trans hvs, hlen, hpt⟩
  · intro i e hi hie
    obtain ⟨e2, he2⟩ := herr i e hi hie
    exact ⟨e2, (hbatch hle).trans he2⟩

/-- C4 (witness).  The two-entry batch over the fresh pair `(2,3)` succeeds
entry-wise when both entries are valid, matching standalone validation; and
the bound fires on a 21-entry batch. -/
theorem batchValidateOrderPrices_spec_witness :
    (List.length [(2 : Addr), 2] = 2 ∧ (2 : Nat) ≤ 20) ∧
    (∃ vs, batchValidateOrderPrices stOr [2, 2] [3, 3] [1000, 1080] [0, 0] = .ok vs ∧
      vs.length = 2 ∧
      ∀ i, i < 2 →
        validateOrderPrice stOr ([(2 : Addr), 2].getD i 0) ([(3 : Addr), 3].getD i 0)
          ([(1000 : Nat), 1080].getD i 0) ([(0 : Nat), 0].getD i 0) =
          .ok (vs.getD i ⟨false, 0, 0, 0, ""⟩)) ∧
    batchValidateOrderPrices stOr (List.replicate 21 2) (List.replicate 21 3)
      (List.replicate 21 1000) (List.replicate 21 0) = .error .tooManyOrders :=
  ⟨⟨rfl, by decide⟩,
   (batchValidateOrderPrices_spec stOr [2, 2] [3, 3] [1000, 1080] [0, 0]
      rfl rfl rfl).2 (by decide) |>.1 (fun i hi => by
        cases i with
        | zero => exact ⟨_, rfl⟩
        | succ j =>
          cases j with
          | zero => exact ⟨_, rfl⟩
          | succ k =>
            simp only [List.length_cons, List.length_nil] at hi
            omega),
   (batchValidateOrderPrices_spec stOr (List.replicate 21 2) (List.replicate 21 3)
      (List.replicate 21 1000) (List.replicate 21 0) (by simp) (by simp) (by simp)).1
      (by simp)⟩

/-- C5.  The exact failover order of `getPrice`: (1) an accepted primary
reading is returned as is; (2) a rejected primary with an active secondary
whose reading is accepted yields the secondary's value; (3) when both feeds
fail, the cached `lastValidPrice` is returned as valid iff it is positive
and at most `maxPriceAge` old; (4) with the cache exhausted too, the result
is invalid.  Part (5) characterises acceptance of a single feed reading:
(given a well-formed reading and no `uint256` overflow) it is accepted iff
`rawPrice > 0`, `updatedAt ≠ 0` and `now − updatedAt ≤ heartbeat`. -/
theorem getCurrentPriceInternal_failover (st : OracleState) (b q : Addr)
    (hpair : (st.tokenPairs (b, q)).baseToken ≠ 0) :
    (∀ p, getPriceFromFeed st (st.tokenPairs (b, q)).primaryFeed = .ok (p, true) →
      getCurrentPriceInternal st b q = .ok (p, true)) ∧
    (∀ p0 s0, getPriceFromFeed st (st.tokenPairs (b, q)).primaryFeed = .ok (p0, false) →
      (st.tokenPairs (b, q)).secondaryFeed.isActive = true →
      getPriceFromFeed st (st.tokenPairs (b, q)).secondaryFeed = .ok (s0, true) →
      getCurrentPriceInternal st b q = .ok (s0, true)) ∧
    (∀ p0, getPriceFromFeed st (st.tokenPairs (b, q)).primaryFeed = .ok (p0, false) →
      ((st.tokenPairs (b, q)).secondaryFeed.isActive = false ∨
        ∃ s0, getPriceFromFeed st (st.tokenPairs (b, q)).secondaryFeed = .ok (s0, false)) →
      0 < (st.tokenPairs (b, q)).lastValidPrice →
      (st.tokenPairs (b, q)).lastUpdateTime ≤ st.timestamp →
      st.timestamp - (st.tokenPairs (b, q)).lastUpdateTime ≤ st.maxPriceAge →
      getCurrentPriceInternal st b q =
        .ok ((st.tokenPairs (b, q)).lastValidPrice, true)) ∧
    (∀ p0, getPriceFromFeed st (st.tokenPairs (b, q)).primaryFeed = .ok (p0, false) →
      ((st.tokenPairs (b, q)).secondaryFeed.isActive = false ∨
        ∃ s0, getPriceFromFeed st (st.tokenPairs (b, q)).secondaryFeed = .ok (s0, false)) →
      ((st.tokenPairs (b, q)).lastValidPrice = 0 ∨
        ((st.tokenPairs (b, q)).lastUpdateTime ≤ st.timestamp ∧
         st.maxPriceAge < st.timestamp - (st.tokenPairs (b, q)).lastUpdateTime)) →
      ∃ z, getCurrentPriceInternal st b q = .ok (z, false)) ∧
    (∀ feed r, feed.isActive = true → feed.oracle ≠ 0 →
      st.env.latestRoundData feed.oracle = some r →
      r.updatedAt ≤ st.timestamp →
      st.env.decimals feed.oracle ≤ 77 →
      r.rawPrice.toNat * (PRICE_PRECISION / 10 ^ st.env.decimals feed.oracle) < 2 ^ 256 →
      ((∃ p2, getPriceFromFeed st feed = .ok (p2, true)) ↔
        (0 < r.rawPrice ∧ r.updatedAt ≠ 0 ∧
         st.timestamp - r.updatedAt ≤ feed.heartbeat))) := by
  refine ⟨?_, ?_, ?_, ?_, ?_⟩
  · intro p hp
    unfold getCurrentPriceInternal
    rw [if_neg hpair, hp]
    simp
  · intro p0 s0 hp hact hs
    unfold getCurrentPriceInternal
    rw [if_neg hpair, hp]
    simp [hact, hs]
  · intro p0 hp hsec hlv hlu hage
    unfold getCurrentPriceInternal
    rw [if_neg hpair, hp]
    rcases hsec with hina | ⟨s0, hs⟩
    · simp [hina, hlv, Nat.not_lt.mpr hlu, hage]
    · by_cases hact : (st.tokenPairs (b, q)).secondaryFeed.isActive = true
      · simp [hact, hs, hlv, Nat.not_lt.mpr hlu, hage]
      · simp [hact, hlv, Nat.not_lt.mpr hlu, hage]
  · intro p0 hp hsec hcache
    rcases hsec with hina | ⟨s0, hs⟩
    · rcases hcache with h0 | ⟨hlu, hold⟩
      · exact ⟨p0, by
          unfold getCurrentPriceInternal
          rw [if_neg hpair, hp]
          simp [hina, h0]⟩
      · by_cases hlv : 0 < (st.tokenPairs (b, q)).lastValidPrice
        · exact ⟨p0, by
            unfold getCurrentPriceInternal
            rw [if_neg hpair, hp]
            simp [hina, hlv, Nat.not_lt.mpr hlu, Nat.not_le.mpr hold]⟩
        · exact ⟨p0, by
            unfold getCurrentPriceInternal
            rw [if_neg hpair, hp]
            simp [hina, hlv]⟩
    · by_cases hact : (st.tokenPairs (b, q)).secondaryFeed.isActive = true
      · rcases hcache with h0 | ⟨hlu, hold⟩
        · exact ⟨s0, by
            unfold getCurrentPriceInternal
            rw [if_neg hpair, hp]
            simp [hact, hs, h0]⟩
        · by_cases hlv : 0 < (st.tokenPairs (b, q)).lastValidPrice
          · exact ⟨s0, by
              unfold getCurrentPriceInternal
              rw [if_neg hpair, hp]
              simp [hact, hs, hlv, Nat.not_lt.mpr hlu, Nat.not_le.mpr hold]⟩
          · exact ⟨s0, by
              unfold getCurrentPriceInternal
              rw [if_neg hpair, hp]
              simp [hact, hs, hlv]⟩
      · rcases hcache with h0 | ⟨hlu, hold⟩
        · exact ⟨p0, by
            unfold getCurrentPriceInternal
            rw [if_neg hpair, hp]
            simp [hact, h0]⟩
        · by_cases hlv : 0 < (st.tokenPairs (b, q)).lastValidPrice
          · exact ⟨p0, by
              unfold getCurrentPriceInternal
              rw [if_neg hpair, hp]
              simp [hact, hlv, Nat.not_lt.mpr hlu, Nat.not_le.mpr hold]⟩
          · exact ⟨p0, by
              unfold getCurrentPriceInternal
              rw [if_neg hpair, hp]
              simp [hact, hlv]⟩
  · intro feed r hact horc hr hle hdec hovf
    constructor
    · rintro ⟨p2, hp2⟩
      unfold getPriceFromFeed at hp2
      rw [if_neg (by simp [hact, horc]), hr] at hp2
      dsimp only at hp2
      by_cases h1 : r.rawPrice ≤ 0
      · rw [if_pos h1] at hp2
        simp at hp2
      · rw [if_neg h1] at hp2
        by_cases h2 : r.updatedAt = 0
        · rw [if_pos h2] at hp2
          simp at hp2
        · rw [if_neg h2, if_neg (Nat.not_lt.mpr hle)] at hp2
          by_cases h3 : feed.heartbeat < st.timestamp - r.updatedAt
          · rw [if_pos h3] at hp2
            simp at hp2
          · exact ⟨not_le.mp h1, h2, Nat.not_lt.mp h3⟩
    · rintro ⟨hraw, hupd, hfresh⟩
      have hpow : powTenCk (st.env.decimals feed.oracle) =
          .ok (10 ^ st.env.decimals feed.oracle) := by
        unfold powTenCk UINT256_LIMIT
        rw [if_pos (lt_of_le_of_lt
          (Nat.pow_le_pow_right (by norm_num) hdec) (by norm_num))]
      have hmul : mulCk r.rawPrice.toNat
          (PRICE_PRECISION / 10 ^ st.env.decimals feed.oracle) =
          .ok (r.rawPrice.toNat * (PRICE_PRECISION / 10 ^ st.env.decimals feed.oracle)) := by
        unfold mulCk UINT256_LIMIT
        rw [if_pos hovf]
      have heq : getPriceFromFeed st feed = .ok
          (if feed.isInverted = true ∧
              0 < r.rawPrice.toNat * (PRICE_PRECISION / 10 ^ st.env.decimals feed.oracle) then
            PRICE_PRECISION * PRICE_PRECISION /
              (r.rawPrice.toNat * (PRICE_PRECISION / 10 ^ st.env.decimals feed.oracle))
          else r.rawPrice.toNat * (PRICE_PRECISION / 10 ^ st.env.decimals feed.oracle),
          true) := by
        unfold getPriceFromFeed
        rw [if_neg (by simp [hact, horc]), hr]
        dsimp only
        rw [if_neg (Int.not_le.mpr hraw), if_neg hupd,
            if_neg (Nat.not_lt.mpr hle), if_neg (Nat.not_lt.mpr hfresh),
            hpow]
        dsimp only
        rw [hmul]
      exact ⟨_, heq⟩

/-- C5 (witness).  On the pair `(4,5)` of `stOr` the primary reading is 600
seconds old against a 500-second heartbeat (rejected) while the secondary is
fresh, and the failover theorem yields the secondary's value 777. -/
theorem getCurrentPriceInternal_failover_witness :
    (stOr.tokenPairs (4, 5)).baseToken ≠ 0 ∧
    getCurrentPriceInternal stOr 4 5 = .ok (777, true) :=
  ⟨by decide,
   (getCurrentPriceInternal_failover stOr 4 5 (by decide)).2.1 0 777 rfl rfl rfl⟩

/-- C6 (amended).  `validateOrderPrice` resolves the tolerance as: explicit
call-supplied value, else the per-token override, else the hard-coded
constant `MAJOR_TOLERANCE = 1000` bps (NOT the admin-settable global
default, see the counterexample); with a valid positive market price `m` it
returns `withinTolerance = (m·(10000−tol)/10000 ≤ p ∧ p ≤ m·(10000+tol)/10000)`,
the order price, the market price, and `deviation = |p − m|·10000/m`; and it
fails with the price-unavailable error whenever no valid market price
exists. -/
theorem validateOrderPrice_spec (st : OracleState) (b q : Addr)
    (orderPrice customTolerance tol : Nat)
    (hop : 0 < orderPrice)
    (htol : tol = if 0 < customTolerance then customTolerance
      else if 0 < st.tokenTolerances b then st.tokenTolerances b else MAJOR_TOLERANCE) :
    (∀ m, getCurrentPriceInternal st b q = .ok (m, true) → 0 < m →
      tol ≤ MAX_DEVIATION →
      m * (BASIS_POINTS + tol) < 2 ^ 256 →
      orderPrice * BASIS_POINTS < 2 ^ 256 →
      m * BASIS_POINTS < 2 ^ 256 →
      validateOrderPrice st b q orderPrice customTolerance = .ok
        { withinTolerance := decide (m * (BASIS_POINTS - tol) / BASIS_POINTS ≤ orderPrice ∧
            orderPrice ≤ m * (BASIS_POINTS + tol) / BASIS_POINTS)
          orderPrice := orderPrice
          marketPrice := m
          deviation := (if m < orderPrice then (orderPrice - m) * BASIS_POINTS
            else (m - orderPrice) * BASIS_POINTS) / m
          validationResult := if decide (m * (BASIS_POINTS - tol) / BASIS_POINTS ≤ orderPrice ∧
              orderPrice ≤ m * (BASIS_POINTS + tol) / BASIS_POINTS) = true then
              "WITHIN_TOLERANCE"
            else "OUTSIDE_TOLERANCE" }) ∧
    (∀ m, getCurrentPriceInternal st b q = .ok (m, false) →
      validateOrderPrice st b q orderPrice customTolerance = .error .priceUnavailable) := by
  constructor
  · intro m hm hm0 htle hov1 hov2 hov3
    have hlo : mulCk m (BASIS_POINTS - tol) = .ok (m * (BASIS_POINTS - tol)) := by
      unfold mulCk UINT256_LIMIT
      exact if_pos (lt_of_le_of_lt (Nat.mul_le_mul_left m (by omega)) hov1)
    have hhi : mulCk m (BASIS_POINTS + tol) = .ok (m * (BASIS_POINTS + tol)) := by
      unfold mulCk UINT256_LIMIT
      exact if_pos hov1
    unfold validateOrderPrice
    rw [if_neg (Nat.pos_iff_ne_zero.mp hop), hm]
    dsimp only
    rw [if_neg (by simp)]
    unfold getDefaultTolerance
    rw [← htol, if_neg (Nat.not_lt.mpr htle), hlo]
    dsimp only
    rw [hhi]
    dsimp only
    rw [if_neg (Nat.pos_iff_ne_zero.mp hm0)]
    by_cases hcmp : m < orderPrice
    · have hdev : mulCk (orderPrice - m) BASIS_POINTS =
          .ok ((orderPrice - m) * BASIS_POINTS) := by
        unfold mulCk UINT256_LIMIT
        exact if_pos (lt_of_le_of_lt
          (Nat.mul_le_mul_right BASIS_POINTS (Nat.sub_le _ _)) hov2)
      rw [if_pos hcmp, hdev, if_pos hcmp]
    · have hdev : mulCk (m - orderPrice) BASIS_POINTS =
          .ok ((m - orderPrice) * BASIS_POINTS) := by
        unfold mulCk UINT256_LIMIT
        exact if_pos (lt_of_le_of_lt
          (Nat.mul_le_mul_right BASIS_POINTS (Nat.sub_le _ _)) hov3)
      rw [if_neg hcmp, hdev, if_neg hcmp]
  · intro m hm
    unfold validateOrderPrice
    rw [if_neg (Nat.pos_iff_ne_zero.mp hop), hm]
    dsimp only
    rw [if_pos (by simp)]

/-- C6 (witness).  On the pair `(2,3)` of `stOr` (market 1000, no override,
no call-supplied tolerance) the resolved tolerance is the constant 1000 bps
and an order price of 1080 validates with deviation 800 bps. -/
theorem validateOrderPrice_spec_witness :
    (0 < (1080 : Nat) ∧ stOr.tokenTolerances 2 = 0) ∧
    validateOrderPrice stOr 2 3 1080 0 =
      .ok ⟨true, 1080, 1000, 800, "WITHIN_TOLERANCE"⟩ :=
  ⟨⟨by decide, rfl⟩,
   ((validateOrderPrice_spec stOr 2 3 1080 0 1000 (by decide) (by decide)).1
      1000 rfl (by decide) (by decide) (by decide) (by decide) (by decide)).trans
     (by rfl)⟩

/-- C10.  Feed normalisation multiplies the raw answer by the truncating
quotient `1e18 / 10^decimals`: for `decimals ≤ 18` this is exactly
`raw·10^(18−decimals)`; for `18 < decimals ≤ 77` the quotient truncates to
zero, so a fresh, positive reading comes back as price 0 with
`isValid = true`, and `_updatePriceForPair` then caches that zero as
`lastValidPrice`. -/
theorem getPriceFromFeed_decimals_truncation (st : OracleState)
    (feed : PriceFeed) (r : FeedReading)
    (hact : feed.isActive = true)
    (horc : feed.oracle ≠ 0)
    (hr : st.env.latestRoundData feed.oracle = some r)
    (hraw : 0 < r.rawPrice)
    (hupd : r.updatedAt ≠ 0)
    (hle : r.updatedAt ≤ st.timestamp)
    (hfresh : st.timestamp - r.updatedAt ≤ feed.heartbeat)
    (hinv : feed.isInverted = false) :
    (st.env.decimals feed.oracle ≤ 18 →
      r.rawPrice.toNat * 10 ^ (18 - st.env.decimals feed.oracle) < 2 ^ 256 →
      getPriceFromFeed st feed =
        .ok (r.rawPrice.toNat * 10 ^ (18 - st.env.decimals feed.oracle), true)) ∧
    (18 < st.env.decimals feed.oracle → st.env.decimals feed.oracle ≤ 77 →
      getPriceFromFeed st feed = .ok (0, true)) ∧
    (∀ b2 q2, 18 < st.env.decimals feed.oracle → st.env.decimals feed.oracle ≤ 77 →
      (st.tokenPairs (b2, q2)).baseToken ≠ 0 →
      (st.tokenPairs (b2, q2)).primaryFeed = feed →
      ∃ st2, updatePriceForPair st b2 q2 = .ok st2 ∧
        (st2.tokenPairs (b2, q2)).lastValidPrice = 0 ∧
        (st2.priceHistory (b2, q2)).isValid = true) := by
  have hread : ∀ hpow : powTenCk (st.env.decimals feed.oracle) =
        .ok (10 ^ st.env.decimals feed.oracle),
      ∀ hquot : Nat, (hq : PRICE_PRECISION / 10 ^ st.env.decimals feed.oracle = hquot) →
      (hmul : mulCk r.rawPrice.toNat hquot = .ok (r.rawPrice.toNat * hquot)) →
      getPriceFromFeed st feed = .ok
        (if feed.isInverted = true ∧ 0 < r.rawPrice.toNat * hquot then
          PRICE_PRECISION * PRICE_PRECISION / (r.rawPrice.toNat * hquot)
        else r.rawPrice.toNat * hquot, true) := by
    intro hpow hquot hq hmul
    unfold getPriceFromFeed
    rw [if_neg (by simp [hact, horc]), hr]
    dsimp only
    rw [if_neg (Int.not_le.mpr hraw), if_neg hupd,
        if_neg (Nat.not_lt.mpr hle), if_neg (Nat.not_lt.mpr hfresh), hpow]
    dsimp only
    rw [hq, hmul]
  have hpow77 : st.env.decimals feed.oracle ≤ 77 →
      powTenCk (st.env.decimals feed.oracle) =
        .ok (10 ^ st.env.decimals feed.oracle) := by
    intro hdec
    unfold powTenCk UINT256_LIMIT
    rw [if_pos (lt_of_le_of_lt
      (Nat.pow_le_pow_right (by norm_num) hdec) (by norm_num))]
  have hlow : st.env.decimals feed.oracle ≤ 18 →
      r.rawPrice.toNat * 10 ^ (18 - st.env.decimals feed.oracle) < 2 ^ 256 →
      getPriceFromFeed st feed =
        .ok (r.rawPrice.toNat * 10 ^ (18 - st.env.decimals feed.oracle), true) := by
    intro hd hov
    have hq : PRICE_PRECISION / 10 ^ st.env.decimals feed.oracle =
        10 ^ (18 - st.env.decimals feed.oracle) := by
      unfold PRICE_PRECISION
      rw [Nat.pow_div hd (by norm_num)]
    have hres := hread (hpow77 (le_trans hd (by norm_num))) _ hq
      (by unfold mulCk UINT256_LIMIT; exact if_pos hov)
    rw [hres, if_neg (fun hand => by rw [hinv] at hand; exact Bool.false_ne_true hand.1)]
  have hzero : 18 < st.env.decimals feed.oracle → st.env.decimals feed.oracle ≤ 77 →
      getPriceFromFeed st feed = .ok (0, true) := by
    intro hd hdec
    have hq : PRICE_PRECISION / 10 ^ st.env.decimals feed.oracle = 0 := by
      refine Nat.div_eq_of_lt ?_
      unfold PRICE_PRECISION
      exact Nat.pow_lt_pow_right (by norm_num) hd
    have hres := hread (hpow77 hdec) 0 hq
      (by unfold mulCk UINT256_LIMIT; rw [Nat.mul_zero]; exact if_pos (by norm_num))
    rw [hres]
    rw [Nat.mul_zero]
    rw [if_neg (by simp)]
  refine ⟨hlow, hzero, ?_⟩
  intro b2 q2 hd hdec hb2 hpf
  have hcpi : getCurrentPriceInternal st b2 q2 = .ok (0, true) := by
    unfold getCurrentPriceInternal
    rw [if_neg hb2, hpf, hzero hd hdec]
    simp
  refine ⟨{ st with
      tokenPairs := updMap st.tokenPairs (b2, q2)
        { st.tokenPairs (b2, q2) with
          lastValidPrice := 0
          lastUpdateTime := st.timestamp }
      priceHistory := updMap st.priceHistory (b2, q2)
        { price := 0, timestamp := st.timestamp, roundId := 0, isValid := true } },
    ?_, ?_, ?_⟩
  · unfold updatePriceForPair
    rw [hcpi]
    dsimp only
    rw [if_pos rfl]
  · simp [updMap]
  · simp [updMap]

/-- C10 (witness).  The pair `(30,31)` of `stOr` has a fresh primary whose
feed reports 19 decimals: the read returns price 0 as valid, and the cache
update stores 0 as `lastValidPrice`. -/
theorem getPriceFromFeed_decimals_truncation_witness :
    (18 < stOr.env.decimals 12 ∧ stOr.env.decimals 12 ≤ 77) ∧
    getPriceFromFeed stOr (stOr.tokenPairs (30, 31)).primaryFeed = .ok (0, true) ∧
    ∃ st2, updatePriceForPair stOr 30 31 = .ok st2 ∧
      (st2.tokenPairs (30, 31)).lastValidPrice = 0 ∧
      (st2.priceHistory (30, 31)).isValid = true :=
  ⟨⟨by decide, by decide⟩,
   (getPriceFromFeed_decimals_truncation stOr (stOr.tokenPairs (30, 31)).primaryFeed
      ⟨1, 123, 0, 10000, 1⟩ rfl (by decide) rfl (by decide) (by decide) (by decide)
      (by decide) rfl).2.1 (by decide) (by decide),
   (getPriceFromFeed_decimals_truncation stOr (stOr.tokenPairs (30, 31)).primaryFeed
      ⟨1, 123, 0, 10000, 1⟩ rfl (by decide) rfl (by decide) (by decide) (by decide)
      (by decide) rfl).2.2 30 31 (by decide) (by decide) (by decide) rfl⟩

end PriceOracle
